import Mathlib

/-!
# ReddiScribe — verification of the task coordinator, generation worker
# and refine-stream splitter

Shallow embedding of `src/gui/task_coordinator.py` (`TaskCoordinator`),
`src/gui/workers.py` (`GenerationWorker.run`) and the first-turn token
splitter of `src/gui/widgets/writer_widget.py`
(`_on_refine_token` / `_on_refine_finished`), together with proofs of the
spec claims about them.
-/

namespace ReddiScribe

/-! ## Task coordinator (`src/gui/task_coordinator.py`)

State of a `TaskCoordinator`.  Python's `set[str]` for `_normal_tasks` is
modelled as a duplicate-free list built with `List.insert`; callbacks are
opaque tokens (`Nat`).  Qt signal emissions and callback invocations are
modelled as an event trace returned by each operation. -/

/-- An observable effect of a coordinator call: a Qt signal emission or a
resume-callback invocation, in program order. -/
inductive CoordEvent where
  | exclusiveStarted : CoordEvent
  | exclusiveFinished : CoordEvent
  | callbackInvoked : Nat → CoordEvent
  deriving DecidableEq, Repr

/-- The four fields of `TaskCoordinator.__init__`. -/
structure CoordState where
  normal : List String
  exclusive : Option String
  pendingExclusive : Option (String × Nat)
  pendingNormal : List (String × Nat)
  deriving DecidableEq, Repr

/-- `TaskCoordinator.__init__`: all containers empty. -/
def CoordState.init : CoordState :=
  { normal := [], exclusive := none, pendingExclusive := none, pendingNormal := [] }

/-- `TaskCoordinator.request_normal`: if an exclusive task is active the
request is appended to `_pending_normal` and `False` is returned; otherwise
the id joins `_normal_tasks` and `True` is returned. -/
def request_normal (taskId : String) (cb : Nat) (s : CoordState) :
    Bool × CoordState × List CoordEvent :=
  if s.exclusive.isSome then
    (false, { s with pendingNormal := s.pendingNormal ++ [(taskId, cb)] }, [])
  else
    (true, { s with normal := s.normal.insert taskId }, [])

/-- `TaskCoordinator.request_exclusive`: starts immediately (emitting
`exclusive_started`) when no normal task runs and no exclusive task is
active; otherwise stores the request in `_pending_exclusive`. -/
def request_exclusive (taskId : String) (cb : Nat) (s : CoordState) :
    Bool × CoordState × List CoordEvent :=
  if s.normal = [] ∧ s.exclusive = none then
    (true, { s with exclusive := some taskId }, [CoordEvent.exclusiveStarted])
  else
    (false, { s with pendingExclusive := some (taskId, cb) }, [])

/-- `TaskCoordinator.finish_normal`: discards the id from `_normal_tasks`,
then, if no normal task remains and an exclusive task is pending, promotes
it (emitting `exclusive_started` and invoking its resume callback). -/
def finish_normal (taskId : String) (s : CoordState) :
    CoordState × List CoordEvent :=
  let n := s.normal.erase taskId
  match s.pendingExclusive with
  | some (excId, excCb) =>
      if n = [] then
        ({ normal := n, exclusive := some excId, pendingExclusive := none,
           pendingNormal := s.pendingNormal },
         [CoordEvent.exclusiveStarted, CoordEvent.callbackInvoked excCb])
      else ({ s with normal := n }, [])
  | none => ({ s with normal := n }, [])

/-- `TaskCoordinator.finish_exclusive`: clears `_exclusive_task`, emits
`exclusive_finished`, then drains `_pending_normal` in order, adding each id
to `_normal_tasks` and invoking its callback. -/
def finish_exclusive (s : CoordState) : CoordState × List CoordEvent :=
  ({ normal := s.pendingNormal.foldl (fun acc p => acc.insert p.1) s.normal,
     exclusive := none, pendingExclusive := s.pendingExclusive,
     pendingNormal := [] },
   CoordEvent.exclusiveFinished ::
     s.pendingNormal.map (fun p => CoordEvent.callbackInvoked p.2))

/-- `TaskCoordinator.cancel_exclusive`: if an exclusive task is active,
behaves like `finish_exclusive` (but keeps `_pending_exclusive`); else if an
exclusive task is pending, silently discards it; else does nothing. -/
def cancel_exclusive (s : CoordState) : CoordState × List CoordEvent :=
  if s.exclusive.isSome then
    ({ normal := s.pendingNormal.foldl (fun acc p => acc.insert p.1) s.normal,
       exclusive := none, pendingExclusive := s.pendingExclusive,
       pendingNormal := [] },
     CoordEvent.exclusiveFinished ::
       s.pendingNormal.map (fun p => CoordEvent.callbackInvoked p.2))
  else if s.pendingExclusive.isSome then
    ({ s with pendingExclusive := none }, [])
  else (s, [])

/-- One coordinator call, for reachability over call sequences. -/
inductive CoordOp where
  | reqNormal : String → Nat → CoordOp
  | reqExclusive : String → Nat → CoordOp
  | finNormal : String → CoordOp
  | finExclusive : CoordOp
  | cancelExclusive : CoordOp
  deriving DecidableEq, Repr

/-- Apply one call, keeping only the post-state. -/
def applyOp (s : CoordState) : CoordOp → CoordState
  | CoordOp.reqNormal id cb => (request_normal id cb s).2.1
  | CoordOp.reqExclusive id cb => (request_exclusive id cb s).2.1
  | CoordOp.finNormal id => (finish_normal id s).1
  | CoordOp.finExclusive => (finish_exclusive s).1
  | CoordOp.cancelExclusive => (cancel_exclusive s).1

/-- Run a sequence of coordinator calls from a state. -/
def runOps (s : CoordState) (ops : List CoordOp) : CoordState :=
  ops.foldl applyOp s

end ReddiScribe

namespace ReddiScribe

/-- **C1.** While `exclusive_task` is set, `request_normal` never adds the id
to `normal_tasks`: it appends the pair to `pending_normal` and returns
`False` (queued), so no normal task is granted immediate start while an
exclusive task is active. -/
theorem requestNormal_queues_while_exclusive (s : CoordState) (id : String)
    (cb : Nat) (h : s.exclusive.isSome) :
    (request_normal id cb s).1 = false ∧
    (request_normal id cb s).2.1.normal = s.normal ∧
    (request_normal id cb s).2.1.pendingNormal = s.pendingNormal ++ [(id, cb)] := by
  simp [request_normal, h]

/-- Witness for C1 at a concrete state with an active exclusive task. -/
theorem requestNormal_queues_while_exclusive_witness :
    (({ normal := [], exclusive := some "writer_refine", pendingExclusive := none,
        pendingNormal := [] } : CoordState).exclusive.isSome = true) ∧
    (request_normal "title_translate" 7
      { normal := [], exclusive := some "writer_refine", pendingExclusive := none,
        pendingNormal := [] }).1 = false :=
  ⟨by decide,
   (requestNormal_queues_while_exclusive
      { normal := [], exclusive := some "writer_refine", pendingExclusive := none,
        pendingNormal := [] } "title_translate" 7 (by decide)).1⟩

end ReddiScribe

namespace ReddiScribe

/-- Membership in the accumulator survives the `finish_exclusive` drain. -/
theorem mem_foldl_insert_of_mem_acc (l : List (String × Nat)) (acc : List String)
    (a : String) (h : a ∈ acc) :
    a ∈ l.foldl (fun acc q => acc.insert q.1) acc := by
  induction l generalizing acc with
  | nil => simpa using h
  | cons p t ih =>
      exact ih (acc.insert p.1) (by simp [List.mem_insert_iff, h])

/-- Every id drained from `pending_normal` ends up in the accumulator. -/
theorem mem_foldl_insert_of_mem (l : List (String × Nat)) (acc : List String)
    (p : String × Nat) (h : p ∈ l) :
    p.1 ∈ l.foldl (fun acc q => acc.insert q.1) acc := by
  induction l generalizing acc with
  | nil => simp at h
  | cons q t ih =>
      rcases List.mem_cons.1 h with h | h
      · subst h
        exact mem_foldl_insert_of_mem_acc t (acc.insert p.1) p.1
          (by simp [List.mem_insert_iff])
      · exact ih (acc.insert q.1) h

/-- **C2.** When `normal_tasks = {id}` and `pending_exclusive = (x, resume)`,
`finish_normal id` leaves `normal_tasks` empty, clears `pending_exclusive`,
sets `exclusive_task := x`, and within the same call emits the
"exclusive began" notification followed by the resume-callback invocation. -/
theorem finishNormal_promotes_pending_exclusive (s : CoordState) (id x : String)
    (cb : Nat) (h1 : s.normal = [id]) (h2 : s.pendingExclusive = some (x, cb)) :
    (finish_normal id s).1.normal = [] ∧
    (finish_normal id s).1.pendingExclusive = none ∧
    (finish_normal id s).1.exclusive = some x ∧
    (finish_normal id s).2 =
      [CoordEvent.exclusiveStarted, CoordEvent.callbackInvoked cb] := by
  simp [finish_normal, h1, h2, List.erase_cons_head]

/-- Witness for C2 at a concrete single-normal-task state. -/
theorem finishNormal_promotes_pending_exclusive_witness :
    (finish_normal "t"
      { normal := ["t"], exclusive := none,
        pendingExclusive := some ("polish", 5), pendingNormal := [] }).1.exclusive
      = some "polish" :=
  (finishNormal_promotes_pending_exclusive
    { normal := ["t"], exclusive := none,
      pendingExclusive := some ("polish", 5), pendingNormal := [] }
    "t" "polish" 5 rfl rfl).2.2.1

/-- **C3.** `finish_exclusive` clears `exclusive_task`; every pair that was in
`pending_normal` at the call has its id in `normal_tasks` afterwards; the
callbacks are invoked in the original FIFO order (the event trace is exactly
the `exclusive_finished` signal followed by the callbacks in list order); and
`pending_normal` is left empty. -/
theorem finishExclusive_drains_pending (s : CoordState)
    (p : String × Nat) (h : p ∈ s.pendingNormal) :
    (finish_exclusive s).1.exclusive = none ∧
    (finish_exclusive s).1.pendingNormal = [] ∧
    p.1 ∈ (finish_exclusive s).1.normal ∧
    (finish_exclusive s).2 =
      CoordEvent.exclusiveFinished ::
        s.pendingNormal.map (fun q => CoordEvent.callbackInvoked q.2) := by
  refine ⟨rfl, rfl, ?_, rfl⟩
  exact mem_foldl_insert_of_mem s.pendingNormal s.normal p h

/-- Witness for C3 at a concrete state with two queued normal tasks. -/
theorem finishExclusive_drains_pending_witness :
    ("a" : String) ∈ (finish_exclusive
      { normal := [], exclusive := some "polish", pendingExclusive := none,
        pendingNormal := [("a", 1), ("b", 2)] }).1.normal :=
  (finishExclusive_drains_pending
    { normal := [], exclusive := some "polish", pendingExclusive := none,
      pendingNormal := [("a", 1), ("b", 2)] }
    ("a", 1) (by simp)).2.2.1

/-- **C9.** `cancel_exclusive` in a state with no active exclusive task but a
pending one clears `pending_exclusive`, emits no notification, and leaves
`normal_tasks` and `pending_normal` exactly unchanged. -/
theorem cancelExclusive_pending_is_silent (s : CoordState)
    (h1 : s.exclusive = none) (h2 : s.pendingExclusive.isSome) :
    (cancel_exclusive s).1 = { s with pendingExclusive := none } ∧
    (cancel_exclusive s).2 = [] := by
  simp [cancel_exclusive, h1, h2]

/-- Witness for C9 at a concrete state with only a pending exclusive task. -/
theorem cancelExclusive_pending_is_silent_witness :
    (cancel_exclusive
      { normal := ["n"], exclusive := none, pendingExclusive := some ("x", 3),
        pendingNormal := [("q", 4)] }).2 = [] :=
  (cancelExclusive_pending_is_silent
    { normal := ["n"], exclusive := none, pendingExclusive := some ("x", 3),
      pendingNormal := [("q", 4)] } rfl rfl).2

/-- In every branch of `finish_normal`, the new `normal_tasks` is the old one
with the id discarded. -/
theorem finishNormal_normal (id : String) (s : CoordState) :
    (finish_normal id s).1.normal = s.normal.erase id := by
  unfold finish_normal
  cases s.pendingExclusive with
  | none => rfl
  | some q =>
      cases q with
      | mk x cb =>
          dsimp only
          split <;> rfl

/-- **C10.** `finish_normal` with an id not in `normal_tasks` leaves
`normal_tasks` unchanged (the discard is a no-op and nothing is raised in the
model: the function is total); and if at that moment `normal_tasks` is empty
and `pending_exclusive = (x, cb)`, the pending exclusive task is promoted and
its callback invoked, even though no active normal task finished. -/
theorem finishNormal_absent_id (s : CoordState) (id : String)
    (h : id ∉ s.normal) :
    (finish_normal id s).1.normal = s.normal ∧
    (∀ x cb, s.normal = [] → s.pendingExclusive = some (x, cb) →
      (finish_normal id s).1.exclusive = some x ∧
      (finish_normal id s).1.pendingExclusive = none ∧
      (finish_normal id s).2 =
        [CoordEvent.exclusiveStarted, CoordEvent.callbackInvoked cb]) := by
  have he : s.normal.erase id = s.normal := List.erase_of_not_mem h
  refine ⟨(finishNormal_normal id s).trans he, ?_⟩
  intro x cb hn hp
  simp [finish_normal, hp, hn]

/-- Witness for C10: finishing a never-started id while only an exclusive
task is pending still promotes it. -/
theorem finishNormal_absent_id_witness :
    (finish_normal "ghost"
      { normal := [], exclusive := none, pendingExclusive := some ("x", 9),
        pendingNormal := [] }).1.exclusive = some "x" :=
  ((finishNormal_absent_id
      { normal := [], exclusive := none, pendingExclusive := some ("x", 9),
        pendingNormal := [] } "ghost" (by simp)).2 "x" 9 rfl rfl).1

/-- **C4, counterexample.** Two consecutive `request_exclusive` calls from
the initial state reach a state where `pending_exclusive` is set while
`normal_tasks` is empty, refuting invariant I2 as stated. -/
theorem pendingExclusive_with_empty_normal_reachable :
    (runOps CoordState.init
      [CoordOp.reqExclusive "a" 0, CoordOp.reqExclusive "b" 1]).pendingExclusive
        = some ("b", 1) ∧
    (runOps CoordState.init
      [CoordOp.reqExclusive "a" 0, CoordOp.reqExclusive "b" 1]).normal = [] := by
  constructor <;> rfl

/-- **C4, amended.** An exclusive request queues only because normal tasks
are still running or an exclusive task is already active: whenever
`request_exclusive` returns False (storing the request in
`pending_exclusive`), at the moment of the call `normal_tasks` is non-empty
or `exclusive_task` is set. -/
theorem requestExclusive_queues_only_when_busy (s : CoordState) (id : String)
    (cb : Nat) (h : (request_exclusive id cb s).1 = false) :
    (s.normal ≠ [] ∨ s.exclusive ≠ none) ∧
    (request_exclusive id cb s).2.1.pendingExclusive = some (id, cb) := by
  by_cases hb : s.normal = [] ∧ s.exclusive = none
  · simp [request_exclusive, hb] at h
  · rw [Decidable.not_and_iff_or_not] at hb
    constructor
    · exact hb
    · simp only [request_exclusive]
      rw [if_neg]
      rintro ⟨h1, h2⟩
      rcases hb with hb | hb <;> exact hb (by simp [h1, h2])

/-- Witness for C4 (amended) at a concrete busy state. -/
theorem requestExclusive_queues_only_when_busy_witness :
    ((request_exclusive "x" 2 (CoordState.mk ["n"] none none [])).1 = false) ∧
    ((CoordState.mk ["n"] none none []).normal ≠ [] ∨
      (CoordState.mk ["n"] none none []).exclusive ≠ none) :=
  ⟨by decide,
   (requestExclusive_queues_only_when_busy
     (CoordState.mk ["n"] none none []) "x" 2 (by decide)).1⟩

end ReddiScribe

namespace ReddiScribe

/-! ## Generation worker (`src/gui/workers.py`, `GenerationWorker`)

`run` iterates the configured generator, checking the `_stopped` flag after
pulling each token, and at one final checkpoint after exhaustion (or in the
exception handlers).  The checkpoints are numbered 0, 1, … in order; a stop
request is modelled by the first checkpoint index at which `_stopped` reads
true (`none` = never).  A stream is the list of tokens the generator yields
before either ending normally or raising. -/

/-- Subtypes of `ReddiScribeError` distinguished by
`GenerationWorker._map_error_to_i18n_key`; `otherReddi` is any other
`ReddiScribeError` subclass. -/
inductive ReddiKind where
  | ollamaNotRunning : ReddiKind
  | modelNotFound : ReddiKind
  | llmTimeout : ReddiKind
  | otherReddi : ReddiKind
  deriving DecidableEq, Repr

/-- A failure raised by the generator: a typed `ReddiScribeError`, or any
other Python exception. -/
inductive GenFailure where
  | reddi : ReddiKind → GenFailure
  | other : GenFailure
  deriving DecidableEq, Repr

/-- `GenerationWorker._map_error_to_i18n_key` (takes a `ReddiScribeError`). -/
def map_error_to_i18n_key : ReddiKind → String
  | ReddiKind.ollamaNotRunning => "errors.ollama_not_running"
  | ReddiKind.modelNotFound => "errors.model_not_found"
  | ReddiKind.llmTimeout => "errors.llm_timeout"
  | ReddiKind.otherReddi => "errors.ollama_not_running"

/-- The key emitted for a failure: the `except ReddiScribeError` branch maps
through `_map_error_to_i18n_key`; the `except Exception` branch emits
`errors.llm_timeout`. -/
def failureKey : GenFailure → String
  | GenFailure.reddi k => map_error_to_i18n_key k
  | GenFailure.other => "errors.llm_timeout"

/-- What the generator produces: tokens, then either normal exhaustion
(`failure = none`) or a raised failure. -/
structure GenStream where
  tokens : List String
  failure : Option GenFailure
  deriving DecidableEq, Repr

/-- A signal emission of `GenerationWorker.run`. -/
inductive GenEvent where
  | tokenReceived : String → GenEvent
  | finishedSignal : String → GenEvent
  | errorOccurred : String → GenEvent
  deriving DecidableEq, Repr

/-- Whether `_stopped` reads true at checkpoint `i` when the stop request
arrives before checkpoint `j` (`stopRequest = some j`). -/
def stoppedAt (stopRequest : Option Nat) (i : Nat) : Bool :=
  match stopRequest with
  | none => false
  | some j => decide (j ≤ i)

/-- Concatenation of the accumulated `full_text`. -/
def concatToks : List String → String
  | [] => ""
  | t :: rest => t ++ concatToks rest

/-- The token loop of `GenerationWorker.run`, together with the post-loop
completion check and the exception handlers, as the list of emitted events.
`i` is the next checkpoint index, `fullText` the accumulated text. -/
def runLoop (stopRequest : Option Nat) (toks : List String)
    (failure : Option GenFailure) (i : Nat) (fullText : String) :
    List GenEvent :=
  match toks with
  | t :: rest =>
      if stoppedAt stopRequest i then []
      else GenEvent.tokenReceived t ::
        runLoop stopRequest rest failure (i + 1) (fullText ++ t)
  | [] =>
      if stoppedAt stopRequest i then []
      else
        match failure with
        | some f => [GenEvent.errorOccurred (failureKey f)]
        | none => [GenEvent.finishedSignal fullText]

/-- `GenerationWorker.run`: unconfigured workers emit `errors.llm_timeout`;
otherwise the token loop runs. -/
def genRun (gen : Option GenStream) (stopRequest : Option Nat) :
    List GenEvent :=
  match gen with
  | none => [GenEvent.errorOccurred "errors.llm_timeout"]
  | some st => runLoop stopRequest st.tokens st.failure 0 ""

end ReddiScribe

namespace ReddiScribe

/-- A stop flag that reads false at a later checkpoint read false earlier. -/
theorem stoppedAt_false_of_le (sr : Option Nat) (a b : Nat) (hab : a ≤ b)
    (h : stoppedAt sr b = false) : stoppedAt sr a = false := by
  cases sr with
  | none => rfl
  | some j =>
      simp [stoppedAt] at h ⊢
      omega

/-- With no stop observed up to the final checkpoint, the loop emits every
token and then the single terminal event. -/
theorem runLoop_no_stop (sr : Option Nat) (toks : List String)
    (failure : Option GenFailure) (i : Nat) (fullText : String)
    (h : stoppedAt sr (i + toks.length) = false) :
    runLoop sr toks failure i fullText =
      toks.map GenEvent.tokenReceived ++
        (match failure with
         | some f => [GenEvent.errorOccurred (failureKey f)]
         | none => [GenEvent.finishedSignal (fullText ++ concatToks toks)]) := by
  induction toks generalizing i fullText with
  | nil =>
      have hi : stoppedAt sr i = false := by simpa using h
      cases failure <;> simp [runLoop, hi, concatToks]
  | cons t rest ih =>
      have hi : stoppedAt sr i = false :=
        stoppedAt_false_of_le sr i (i + (t :: rest).length) (by simp) h
      have h' : stoppedAt sr ((i + 1) + rest.length) = false := by
        have he : (i + 1) + rest.length = i + (t :: rest).length := by
          simp [Nat.add_comm, Nat.add_assoc, Nat.add_left_comm]
        rw [he]; exact h
      cases failure with
      | none =>
          simp [runLoop, hi, ih (i + 1) (fullText ++ t) h', concatToks,
            String.append_assoc]
      | some f => simp [runLoop, hi, ih (i + 1) (fullText ++ t) h']

/-- If the stop request arrives at or before the final checkpoint, no
completion event is ever emitted. -/
theorem runLoop_stop_no_finished (j : Nat) (toks : List String)
    (failure : Option GenFailure) (i : Nat) (fullText : String)
    (hj : j ≤ i + toks.length) (t : String) :
    GenEvent.finishedSignal t ∉ runLoop (some j) toks failure i fullText := by
  induction toks generalizing i fullText with
  | nil =>
      have hj' : j ≤ i := by simpa using hj
      have hi : stoppedAt (some j) i = true := by
        simp [stoppedAt, hj']
      simp [runLoop, hi]
  | cons a rest ih =>
      intro hmem
      cases hi : stoppedAt (some j) i with
      | true => simp [runLoop, hi] at hmem
      | false =>
          simp [runLoop, hi] at hmem
          have hj' : j ≤ (i + 1) + rest.length := by
            simp at hj
            omega
          exact ih (i + 1) (fullText ++ a) hj' hmem

/-- The loop never emits both a completion event and an error event. -/
theorem runLoop_not_both (sr : Option Nat) (toks : List String)
    (failure : Option GenFailure) (i : Nat) (fullText : String) :
    ¬((∃ t, GenEvent.finishedSignal t ∈ runLoop sr toks failure i fullText) ∧
      (∃ k, GenEvent.errorOccurred k ∈ runLoop sr toks failure i fullText)) := by
  induction toks generalizing i fullText with
  | nil =>
      rintro ⟨⟨t, ht⟩, ⟨k, hk⟩⟩
      cases hi : stoppedAt sr i with
      | true => simp [runLoop, hi] at ht
      | false =>
          cases failure with
          | some f => simp [runLoop, hi] at ht
          | none => simp [runLoop, hi] at hk
  | cons a rest ih =>
      rintro ⟨⟨t, ht⟩, ⟨k, hk⟩⟩
      cases hi : stoppedAt sr i with
      | true => simp [runLoop, hi] at ht
      | false =>
          simp [runLoop, hi] at ht hk
          exact ih (i + 1) (fullText ++ a) ⟨⟨t, ht⟩, ⟨k, hk⟩⟩

/-- **C7.** For every run: (1) on stream exhaustion with no stop observed,
the run emits its tokens and then exactly one completion event carrying the
full accumulated text; (2) if a stop request is observed at a token boundary
(some checkpoint of the run), no completion event is emitted; (3) no run
emits both an error event and a completion event. -/
theorem genRun_completion_semantics (st : GenStream) (stopRequest : Option Nat) :
    (st.failure = none → stoppedAt stopRequest st.tokens.length = false →
      genRun (some st) stopRequest =
        st.tokens.map GenEvent.tokenReceived ++
          [GenEvent.finishedSignal (concatToks st.tokens)]) ∧
    (∀ j, stopRequest = some j → j ≤ st.tokens.length →
      ∀ t, GenEvent.finishedSignal t ∉ genRun (some st) stopRequest) ∧
    (∀ gen : Option GenStream,
      ¬((∃ t, GenEvent.finishedSignal t ∈ genRun gen stopRequest) ∧
        (∃ k, GenEvent.errorOccurred k ∈ genRun gen stopRequest))) := by
  refine ⟨?_, ?_, ?_⟩
  · intro hf hstop
    have h0 : stoppedAt stopRequest (0 + st.tokens.length) = false := by
      simpa using hstop
    simp only [genRun, hf]
    rw [runLoop_no_stop stopRequest st.tokens none 0 "" h0]
    simp
  · intro j hj hle t
    subst hj
    have h0 : j ≤ 0 + st.tokens.length := by simpa using hle
    exact runLoop_stop_no_finished j st.tokens st.failure 0 "" h0 t
  · intro gen
    cases gen with
    | none =>
        rintro ⟨⟨t, ht⟩, _⟩
        simp [genRun] at ht
    | some st' => exact runLoop_not_both stopRequest st'.tokens st'.failure 0 ""

/-- Witness for C7: a two-token stream that exhausts cleanly emits both
tokens and one completion event with the concatenated text. -/
theorem genRun_completion_semantics_witness :
    genRun (some (GenStream.mk ["He", "llo"] none)) none =
      [GenEvent.tokenReceived "He", GenEvent.tokenReceived "llo",
       GenEvent.finishedSignal "Hello"] :=
  ((genRun_completion_semantics (GenStream.mk ["He", "llo"] none) none).1
    rfl rfl).trans (by decide)

/-- **C8, counterexample.** A failure outside the typed `ReddiScribeError`
family is mapped to the timeout key `errors.llm_timeout`, not to the generic
service-unavailable key `errors.ollama_not_running` that the claim demands. -/
theorem genericException_maps_to_timeout_key :
    genRun (some (GenStream.mk [] (some GenFailure.other))) none =
      [GenEvent.errorOccurred "errors.llm_timeout"] ∧
    "errors.llm_timeout" ≠ "errors.ollama_not_running" :=
  ⟨rfl, by decide⟩

/-- **C8, amended.** A failure that is none of the three typed kinds is
mapped by family: a `ReddiScribeError` of any other subtype yields the
generic service-unavailable key, while a failure outside the typed family
yields the timeout key. -/
theorem genRun_unrecognized_failure (st : GenStream) (stopRequest : Option Nat)
    (hstop : stoppedAt stopRequest st.tokens.length = false)
    (hf : st.failure = some (GenFailure.reddi ReddiKind.otherReddi) ∨
          st.failure = some GenFailure.other) :
    genRun (some st) stopRequest =
      st.tokens.map GenEvent.tokenReceived ++
        [GenEvent.errorOccurred
          (if st.failure = some GenFailure.other then "errors.llm_timeout"
           else "errors.ollama_not_running")] := by
  have h0 : stoppedAt stopRequest (0 + st.tokens.length) = false := by
    simpa using hstop
  rcases hf with hf | hf
  · simp only [genRun, hf]
    rw [runLoop_no_stop stopRequest st.tokens
      (some (GenFailure.reddi ReddiKind.otherReddi)) 0 "" h0]
    simp [hf, failureKey, map_error_to_i18n_key]
  · simp only [genRun, hf]
    rw [runLoop_no_stop stopRequest st.tokens (some GenFailure.other) 0 "" h0]
    simp [hf, failureKey]

/-- Witness for C8 (amended): an unrecognized `ReddiScribeError` subtype
yields the service-unavailable key. -/
theorem genRun_unrecognized_failure_witness :
    genRun (some (GenStream.mk [] (some (GenFailure.reddi ReddiKind.otherReddi))))
        none = [GenEvent.errorOccurred "errors.ollama_not_running"] :=
  (genRun_unrecognized_failure
    (GenStream.mk [] (some (GenFailure.reddi ReddiKind.otherReddi))) none rfl
    (Or.inl rfl)).trans (by decide)

end ReddiScribe

namespace ReddiScribe

/-! ## First-turn refine-stream splitter
(`src/gui/widgets/writer_widget.py`, `_on_refine_token` and the buffer flush
of `_on_refine_finished`)

Text is modelled as `List Char`.  The translation sink is the text inserted
into `_final_output`; the commentary sink is the text appended to the chat
streaming message.  First-turn mode (`_is_first_refine = True`) throughout. -/

/-- The characters Python's `str.rstrip()` / `str.lstrip()` strip, i.e.
those with `str.isspace()` true: ASCII whitespace U+0009–U+000D and U+0020,
the information separators U+001C–U+001F, NEL U+0085, NBSP U+00A0, Ogham
space U+1680, the typographic spaces U+2000–U+200A, the line and paragraph
separators U+2028/U+2029, NNBSP U+202F, MMSP U+205F, and ideographic space
U+3000. -/
def isPyWhitespace (c : Char) : Bool :=
  (0x09 ≤ c.toNat && c.toNat ≤ 0x0d) || c.toNat = 0x20 ||
  (0x1c ≤ c.toNat && c.toNat ≤ 0x1f) || c.toNat = 0x85 || c.toNat = 0xa0 ||
  c.toNat = 0x1680 || (0x2000 ≤ c.toNat && c.toNat ≤ 0x200a) ||
  c.toNat = 0x2028 || c.toNat = 0x2029 || c.toNat = 0x202f ||
  c.toNat = 0x205f || c.toNat = 0x3000

/-- Python `s.lstrip()`. -/
def lstripP (l : List Char) : List Char := l.dropWhile isPyWhitespace

/-- Python `s.rstrip()`. -/
def rstripP (l : List Char) : List Char :=
  (l.reverse.dropWhile isPyWhitespace).reverse

/-- The delimiter `"%%%"`. -/
def delim : List Char := ['%', '%', '%']

/-- Python `buf.index("%%%")` (first occurrence), `none` when
`"%%%" not in buf`. -/
def findDelim : List Char → Option Nat
  | '%' :: '%' :: '%' :: _ => some 0
  | _ :: rest => (findDelim rest).map (· + 1)
  | [] => none

/-- Number of indices at which the delimiter occurs. -/
def countDelim : List Char → Nat
  | [] => 0
  | c :: rest =>
      (if delim.isPrefixOf (c :: rest) then 1 else 0) + countDelim rest

/-- Splitter state: `_token_buffer`, `_refine_started`, and the two sinks. -/
structure SplitState where
  buffer : List Char
  started : Bool
  transOut : List Char
  chatOut : List Char
  deriving DecidableEq, Repr

/-- Initial first-turn streaming state: empty buffer, `_refine_started`
false, nothing emitted. -/
def SplitState.start : SplitState :=
  { buffer := [], started := false, transOut := [], chatOut := [] }

/-- `_on_refine_token` in first-turn mode: past the delimiter everything goes
to chat; otherwise the token joins the buffer, and either the delimiter is
found (flush `rstrip` of the part before it to translation, `lstrip` of the
part after it to chat, clear the buffer, set `_refine_started`), or, when the
buffer exceeds 5 characters, all but its last 3 characters are flushed to
translation (`buffer[:-3]` / `buffer[-3:]`). -/
def onToken (s : SplitState) (tok : List Char) : SplitState :=
  if s.started then { s with chatOut := s.chatOut ++ tok }
  else
    let buf := s.buffer ++ tok
    match findDelim buf with
    | some idx =>
        { buffer := [], started := true,
          transOut := s.transOut ++ rstripP (buf.take idx),
          chatOut := s.chatOut ++ lstripP (buf.drop (idx + 3)) }
    | none =>
        if 5 < buf.length then
          { s with buffer := buf.drop (buf.length - 3),
                   transOut := s.transOut ++ buf.take (buf.length - 3) }
        else { s with buffer := buf }

/-- The buffer flush of `_on_refine_finished`: if no delimiter was seen and
the buffer is non-empty, the remaining buffer goes verbatim to translation. -/
def onFinish (s : SplitState) : SplitState :=
  if s.buffer ≠ [] ∧ s.started = false then
    { s with transOut := s.transOut ++ s.buffer, buffer := [] }
  else s

/-- Feed a list of chunks through `_on_refine_token`. -/
def feedChunks (s : SplitState) (chunks : List (List Char)) : SplitState :=
  chunks.foldl onToken s

/-- A whole first-turn stream: the chunks, then the end-of-stream flush. -/
def runSplitter (chunks : List (List Char)) : SplitState :=
  onFinish (feedChunks SplitState.start chunks)

/-- One-character-at-a-time chunking of a text. -/
def charChunks (t : List Char) : List (List Char) :=
  t.map (fun c => [c])

end ReddiScribe

namespace ReddiScribe

/-- **C5, counterexample.** For `T = "ab \n%%%c"` (one delimiter occurrence,
first index 4), the translation sink does not receive the text before the
delimiter (`"ab \n"`): a character-at-a-time feed yields `"ab "`, a
single-chunk feed yields `"ab"`, so the output is also not
chunking-independent. -/
theorem splitter_not_exact_nor_chunk_invariant :
    findDelim "ab \n%%%c".toList = some 4 ∧
    countDelim "ab \n%%%c".toList = 1 ∧
    (runSplitter (charChunks "ab \n%%%c".toList)).transOut = "ab ".toList ∧
    (runSplitter ["ab \n%%%c".toList]).transOut = "ab".toList ∧
    (runSplitter (charChunks "ab \n%%%c".toList)).transOut ≠
      ("ab \n%%%c".toList).take 4 ∧
    (runSplitter ["ab \n%%%c".toList]).transOut ≠
      ("ab \n%%%c".toList).take 4 ∧
    (runSplitter (charChunks "ab \n%%%c".toList)).transOut ≠
      (runSplitter ["ab \n%%%c".toList]).transOut := by
  refine ⟨by decide, by decide, by decide, by decide, by decide, by decide,
    by decide⟩

/-- **C5, amended.** For any text containing exactly one occurrence of the
delimiter, first found at `idx`, feeding it as a single chunk (followed by
the end-of-stream flush) puts the text before the delimiter trimmed of
trailing whitespace on the translation sink and the text after the delimiter
trimmed of leading whitespace on the commentary sink. -/
theorem splitter_single_chunk_roundtrip (t : List Char) (idx : Nat)
    (_hcount : countDelim t = 1) (hidx : findDelim t = some idx) :
    (runSplitter [t]).transOut = rstripP (t.take idx) ∧
    (runSplitter [t]).chatOut = lstripP (t.drop (idx + 3)) := by
  simp [runSplitter, feedChunks, onToken, SplitState.start, hidx, onFinish]

/-- Witness for C5 (amended) on `"a%%%b"`. -/
theorem splitter_single_chunk_roundtrip_witness :
    (runSplitter ["a%%%b".toList]).transOut = ['a'] ∧
    (runSplitter ["a%%%b".toList]).chatOut = ['b'] :=
  ⟨(splitter_single_chunk_roundtrip "a%%%b".toList 1 (by decide)
      (by decide)).1.trans (by decide),
   (splitter_single_chunk_roundtrip "a%%%b".toList 1 (by decide)
      (by decide)).2.trans (by decide)⟩

/-- **C6, counterexample.** Appending `"abcdef"` to an empty buffer (no
delimiter present, buffer length 6 > 5) flushes `"abc"` and retains the last
3 characters `"def"`, not the claimed delimiter-length − 1 = 2. -/
theorem splitter_overflow_retains_three_not_two :
    findDelim "abcdef".toList = none ∧
    5 < ("abcdef".toList).length ∧
    (onToken SplitState.start "abcdef".toList).transOut = "abc".toList ∧
    (onToken SplitState.start "abcdef".toList).buffer = "def".toList ∧
    (onToken SplitState.start "abcdef".toList).buffer.length = 3 ∧
    (onToken SplitState.start "abcdef".toList).buffer.length ≠ 2 := by
  refine ⟨by decide, by decide, by decide, by decide, by decide, by decide⟩

/-- **C6, amended.** In first-turn mode, whenever a fragment joins the
rolling buffer, the delimiter is not found, and the buffer exceeds the
safety threshold of 5, the splitter flushes all but the last 3
(delimiter-length) characters to the translation sink, keeping exactly 3
characters buffered. -/
theorem onToken_overflow_keeps_three (s : SplitState) (tok : List Char)
    (h0 : s.started = false)
    (h1 : findDelim (s.buffer ++ tok) = none)
    (h2 : 5 < (s.buffer ++ tok).length) :
    (onToken s tok).buffer =
      (s.buffer ++ tok).drop ((s.buffer ++ tok).length - 3) ∧
    (onToken s tok).transOut =
      s.transOut ++ (s.buffer ++ tok).take ((s.buffer ++ tok).length - 3) ∧
    (onToken s tok).buffer.length = 3 := by
  have h2' : 5 < s.buffer.length + tok.length := by simpa using h2
  refine ⟨by simp [onToken, h0, h1, h2'], by simp [onToken, h0, h1, h2'], ?_⟩
  simp [onToken, h0, h1, h2', List.length_drop]
  omega

/-- Witness for C6 (amended) on the empty buffer and fragment `"abcdef"`. -/
theorem onToken_overflow_keeps_three_witness :
    (onToken SplitState.start "abcdef".toList).buffer.length = 3 :=
  (onToken_overflow_keeps_three SplitState.start "abcdef".toList rfl
    (by decide) (by decide)).2.2

end ReddiScribe
